import Mathlib

/-!
# Formal model of the Enplanement dashboard

A shallow embedding of the aggregation logic of `src/Enplanement.py`, a
Streamlit dashboard over a flight-records table.  The table is a list of
records; dates are modelled as day ordinals (`Nat`), numeric columns as `ℚ`
(exact arithmetic in place of float64), and pandas' NaN results (mean or
standard deviation of too few samples) as `Option`, with the convention that
any comparison against `none` is false, as comparisons against NaN are.

Line numbers in doc comments refer to `src/Enplanement.py`.
-/

/-- One row of the flight table (one record of `clean_flight_data.csv`). -/
structure FlightRecord where
  departureDate : Nat
  flightNumber : String
  segment : String
  adults : ℚ
  infants : ℚ
  totalBooked : ℚ
  noShows : ℚ
  flownLoad : ℚ
  bookedLoadAdultInfant : ℚ
deriving DecidableEq

/-- The loaded table (`df`, line 17): an ordered collection of rows. -/
abbrev FlightTable := List FlightRecord

/-- Lexicographic comparison of character lists by code point, the order
Python uses on strings.  Written recursively so that it evaluates inside
the kernel (the library order on `String` is built on byte iterators and
does not reduce). -/
def charListLe : List Char → List Char → Bool
  | [], _ => true
  | _ :: _, [] => false
  | a :: as, b :: bs =>
      if a.val < b.val then true
      else if b.val < a.val then false
      else charListLe as bs

/-- Lexicographic order on strings by code point, as Python's `sorted`
compares segment labels. -/
def strLe (a b : String) : Prop := charListLe a.data b.data = true

instance : DecidableRel strLe := fun a b =>
  inferInstanceAs (Decidable (charListLe a.data b.data = true))

/-- `df[df['Departure Date'].dt.date == selected_date]` (line 33). -/
def filterByDate (t : FlightTable) (d : Nat) : FlightTable :=
  t.filter (fun r => r.departureDate = d)

/-- `df[df['Segment'] == selected_segment]` (lines 56, 112, 113). -/
def filterBySegment (t : FlightTable) (s : String) : FlightTable :=
  t.filter (fun r => r.segment = s)

/-- `df['Departure Date'].dt.date.unique()` (line 30): the distinct dates
of the table. -/
def uniqueDates (t : FlightTable) : List Nat :=
  (t.map (fun r => r.departureDate)).dedup

/-- `df[col].sum()` for one numeric column. -/
def colSum (t : FlightTable) (f : FlightRecord → ℚ) : ℚ :=
  (t.map f).sum

/-- `filtered_df[cols].sum()` (lines 39, 117, 120): one row of column
totals. -/
def sumColumns (t : FlightTable) (cols : List (FlightRecord → ℚ)) : List ℚ :=
  cols.map (fun f => colSum t f)

/-- Group keys of `groupby('Segment')`: the distinct segments, sorted
ascending (pandas `groupby` sorts group keys by default). -/
def segKeys (t : FlightTable) : List String :=
  List.insertionSort strLe (t.map (fun r => r.segment)).dedup

/-- Group keys of `groupby('Departure Date')`: the distinct dates, sorted
ascending. -/
def dateKeys (t : FlightTable) : List Nat :=
  List.insertionSort (fun a b => a ≤ b) (t.map (fun r => r.departureDate)).dedup

/-- `filtered_df.groupby('Segment')['No Shows'].sum()` (line 43). -/
def no_shows_by_segment (t : FlightTable) : List (String × ℚ) :=
  (segKeys t).map (fun s => (s, colSum (filterBySegment t s) (fun r => r.noShows)))

/-- `filtered_df.groupby('Departure Date')[['Adults','Infants','Total Booked']].sum()`
(line 62). -/
def daily_totals (t : FlightTable) : List (Nat × ℚ × ℚ × ℚ) :=
  (dateKeys t).map (fun d =>
    (d, colSum (filterByDate t d) (fun r => r.adults),
        colSum (filterByDate t d) (fun r => r.infants),
        colSum (filterByDate t d) (fun r => r.totalBooked)))

/-- `df.groupby('Segment')[metric].sum()` as a keyed series, keys in group
order (sorted ascending). -/
def groupSumBySegment (t : FlightTable) (m : FlightRecord → ℚ) : List (String × ℚ) :=
  (segKeys t).map (fun s => (s, colSum (filterBySegment t s) m))

/-- `df.groupby('Departure Date')[metric].sum()` as a keyed series. -/
def groupSumByDate (t : FlightTable) (m : FlightRecord → ℚ) : List (Nat × ℚ) :=
  (dateKeys t).map (fun d => (d, colSum (filterByDate t d) m))

/-- The value-descending order used by `sort_values(ascending=False)`:
`p` may come before `q` when `q`'s value is at most `p`'s. -/
def byValDesc {α : Type} (p q : α × ℚ) : Prop := q.2 ≤ p.2

/-- `df.groupby('Segment')['Flown Load'].sum().sort_values(ascending=False).head(5)`
(line 79).  `sort_values` runs with its default `kind='quicksort'`, which
pandas documents as not stable, so the program guarantees only *some*
permutation of the grouped series that is sorted non-increasingly by
value — the order of tied sums is unspecified.  The operation is
therefore embedded as the relation between the table and every list the
program may return: a value-sorted permutation of the grouped series
truncated to its first 5 entries. -/
def top_segments (t : FlightTable) (out : List (String × ℚ)) : Prop :=
  ∃ s : List (String × ℚ),
    (groupSumBySegment t (fun r => r.flownLoad)).Perm s
      ∧ s.Sorted byValDesc ∧ out = s.take 5

/-- `df.groupby('Departure Date')['Total Booked'].sum().sort_values(ascending=False).head(5)`
(line 83), embedded as a relation exactly as `top_segments` is. -/
def top_dates (t : FlightTable) (out : List (Nat × ℚ)) : Prop :=
  ∃ s : List (Nat × ℚ),
    (groupSumByDate t (fun r => r.totalBooked)).Perm s
      ∧ s.Sorted byValDesc ∧ out = s.take 5

/-- `df1.groupby('Departure Date')['No Shows'].sum()` for one segment
(lines 142, 143). -/
def no_shows_daily (t : FlightTable) (s : String) : List (Nat × ℚ) :=
  groupSumByDate (filterBySegment t s) (fun r => r.noShows)

/-- First-match lookup in a keyed series, returning 0 when the key is
absent: the reindexing-plus-`fillna(0)` step of line 148. -/
def lookup0 : List (Nat × ℚ) → Nat → ℚ
  | [], _ => 0
  | (k, v) :: rest, d => if k = d then v else lookup0 rest d

/-- The sorted union of the date axes of two series: the index alignment
performed by `pd.DataFrame({seg1: no_shows1, seg2: no_shows2})` (lines
145-148). -/
def unionDates (a b : List (Nat × ℚ)) : List Nat :=
  List.insertionSort (fun x y => x ≤ y) ((a.map Prod.fst) ++ (b.map Prod.fst)).dedup

/-- `pd.DataFrame({seg1: no_shows1, seg2: no_shows2}).fillna(0)` (lines
145-148): both series reindexed over the union of their date axes, with 0
substituted for missing dates. -/
def compare_df (t : FlightTable) (s1 s2 : String) : List (Nat × ℚ × ℚ) :=
  (unionDates (no_shows_daily t s1) (no_shows_daily t s2)).map
    (fun d => (d, lookup0 (no_shows_daily t s1) d, lookup0 (no_shows_daily t s2) d))

/-- Daily adults/infants totals with the derived `Total` column (lines
126-127 and 132-133). -/
def dailyWithTotal (t : FlightTable) : List (Nat × ℚ × ℚ × ℚ) :=
  (dateKeys t).map (fun d =>
    (d, colSum (filterByDate t d) (fun r => r.adults),
        colSum (filterByDate t d) (fun r => r.infants),
        colSum (filterByDate t d) (fun r => r.adults)
          + colSum (filterByDate t d) (fun r => r.infants)))

/-- The columns summed by the per-segment summaries (lines 117, 120). -/
def compareCols : List (FlightRecord → ℚ) :=
  [fun r => r.adults, fun r => r.infants, fun r => r.totalBooked,
   fun r => r.noShows, fun r => r.flownLoad]

/-- Everything the Compare Segments page renders when two distinct
segments are chosen (lines 112-158). -/
structure ComparisonBundle where
  summary1 : List ℚ
  summary2 : List ℚ
  daily1 : List (Nat × ℚ × ℚ × ℚ)
  daily2 : List (Nat × ℚ × ℚ × ℚ)
  noShowsCompare : List (Nat × ℚ × ℚ)
  scatter1 : List (ℚ × ℚ)
  scatter2 : List (ℚ × ℚ)
deriving DecidableEq

/-- Result of the Compare Segments page: either the bare warning of line
110 (carrying no data), or the full comparison bundle. -/
inductive ComparePageResult
  | warning
  | results (b : ComparisonBundle)
deriving DecidableEq

/-- The Compare Segments page (lines 109-158): the `seg1 == seg2` guard,
then the summaries, daily trends, aligned no-shows comparison and scatter
data for the two chosen segments. -/
def comparePage (t : FlightTable) (s1 s2 : String) : ComparePageResult :=
  if s1 = s2 then ComparePageResult.warning
  else
    ComparePageResult.results
      { summary1 := sumColumns (filterBySegment t s1) compareCols
        summary2 := sumColumns (filterBySegment t s2) compareCols
        daily1 := dailyWithTotal (filterBySegment t s1)
        daily2 := dailyWithTotal (filterBySegment t s2)
        noShowsCompare := compare_df t s1 s2
        scatter1 := (filterBySegment t s1).map (fun r => (r.bookedLoadAdultInfant, r.flownLoad))
        scatter2 := (filterBySegment t s2).map (fun r => (r.bookedLoadAdultInfant, r.flownLoad)) }

/-- `Series.mean` as a total function (meaningful only on nonempty input). -/
def qmean (xs : List ℚ) : ℚ := xs.sum / xs.length

/-- `Series.mean`: NaN (`none`) on an empty series. -/
def seriesMean (xs : List ℚ) : Option ℚ :=
  if xs.length = 0 then none else some (qmean xs)

/-- Sum of squared deviations from the mean. -/
def sumSqDev (xs : List ℚ) : ℚ :=
  (xs.map (fun x => (x - qmean xs) ^ 2)).sum

/-- `Series.var` with pandas' default `ddof=1` (sample variance, N−1
denominator): NaN (`none`) on fewer than two samples. -/
def sampleVar (xs : List ℚ) : Option ℚ :=
  if xs.length ≤ 1 then none else some (sumSqDev xs / ((xs.length : ℚ) - 1))

/-- `Series.std` with pandas' default `ddof=1` (sample standard
deviation). -/
noncomputable def sampleStd (xs : List ℚ) : Option ℝ :=
  match sampleVar xs with
  | none => none
  | some v => some (Real.sqrt ((v : ℚ) : ℝ))

/-- The `No Shows` column of a table as a series. -/
def noShowsList (t : FlightTable) : List ℚ := t.map (fun r => r.noShows)

/-- `df['No Shows'].mean() + 2 * df['No Shows'].std()` (line 96); `none`
models a NaN threshold (empty table, or a single row, whose sample
standard deviation is undefined). -/
noncomputable def outlier_threshold (t : FlightTable) : Option ℝ :=
  match seriesMean (noShowsList t), sampleStd (noShowsList t) with
  | some m, some s => some ((m : ℝ) + 2 * s)
  | _, _ => none

/-- A row passes the `df['No Shows'] > outlier_threshold` mask (line 97).
A comparison against NaN (`none`) is false, as in IEEE arithmetic. -/
def isOutlier (t : FlightTable) (r : FlightRecord) : Prop :=
  ∃ thr : ℝ, outlier_threshold t = some thr ∧ thr < (r.noShows : ℝ)

/-- `df[df['No Shows'] > outlier_threshold]` (line 97). -/
noncomputable def outliers (t : FlightTable) : List FlightRecord :=
  t.filter (fun r => @decide (isOutlier t r) (Classical.propDecidable _))

/-- The numeric columns of the table
(`df.select_dtypes(include='number')`, line 91). -/
def numericCols : List (FlightRecord → ℚ) :=
  [fun r => r.adults, fun r => r.infants, fun r => r.totalBooked,
   fun r => r.noShows, fun r => r.flownLoad, fun r => r.bookedLoadAdultInfant]

/-- Mean of one column of a table. -/
def colMean (t : FlightTable) (f : FlightRecord → ℚ) : ℚ := qmean (t.map f)

/-- Sum of products of deviations of two columns about their means (the
numerator data of Pearson correlation). -/
def sxy (t : FlightTable) (f g : FlightRecord → ℚ) : ℚ :=
  (t.map (fun r => (f r - colMean t f) * (g r - colMean t g))).sum

/-- One entry of `numeric_df.corr()` (line 92): the Pearson correlation of
two columns. -/
noncomputable def corr (t : FlightTable) (f g : FlightRecord → ℚ) : ℝ :=
  ((sxy t f g : ℚ) : ℝ) /
    (Real.sqrt ((sxy t f f : ℚ) : ℝ) * Real.sqrt ((sxy t g g : ℚ) : ℝ))

/-! ### Concrete tables used by witnesses and counterexamples -/

/-- Segment "A", date 1. -/
def rA : FlightRecord := ⟨1, "F1", "A", 2, 0, 2, 1, 5, 2⟩

/-- Segment "B", date 1; same flown load as `rA`. -/
def rB : FlightRecord := ⟨1, "F2", "B", 5, 1, 6, 0, 5, 6⟩

/-- A two-row table with two segments whose flown-load sums tie. -/
def tTie : FlightTable := [rA, rB]

/-- Scenario table of the spec: segment "A" on dates 1 and 2, segment "B"
on dates 2 and 3. -/
def tScen : FlightTable :=
  [⟨1, "F1", "A", 2, 0, 2, 4, 3, 2⟩,
   ⟨2, "F2", "A", 3, 1, 4, 1, 4, 4⟩,
   ⟨2, "F3", "B", 5, 0, 5, 2, 5, 5⟩,
   ⟨3, "F4", "B", 1, 0, 1, 7, 2, 1⟩]

/-- A two-row table whose `No Shows` column is constant. -/
def tConst : FlightTable :=
  [⟨1, "F1", "A", 2, 0, 2, 5, 3, 2⟩, ⟨2, "F2", "B", 3, 1, 4, 5, 4, 4⟩]

/-- A one-row table. -/
def tOne : FlightTable := [⟨1, "F1", "A", 2, 0, 2, 3, 3, 2⟩]

/-- A three-row table with `No Shows` values 1, 2, 3 (sample variance 1). -/
def tStd : FlightTable :=
  [⟨1, "F1", "A", 2, 0, 2, 1, 3, 2⟩,
   ⟨2, "F2", "A", 3, 1, 4, 2, 4, 4⟩,
   ⟨3, "F3", "B", 5, 0, 5, 3, 5, 5⟩]

/-- A two-row table in which every numeric column takes two distinct
values (every column has nonzero variance). -/
def tVar : FlightTable :=
  [⟨1, "F1", "A", 1, 1, 1, 1, 1, 1⟩, ⟨2, "F2", "B", 2, 2, 2, 2, 2, 2⟩]

/-! ### Helper lemmas -/

/-- Counting in a filtered list: the if-form of `List.count_filter`. -/
lemma count_filter_ite {α : Type} [DecidableEq α] (a : α) (p : α → Bool)
    (l : List α) :
    (l.filter p).count a = if p a = true then l.count a else 0 := by
  by_cases h : p a = true
  · rw [if_pos h, List.count_filter h]
  · rw [if_neg h, List.count_eq_zero]
    intro hmem
    exact h ((List.mem_filter.mp hmem).2)

/-- Summing an indicator over a list without duplicates. -/
lemma sum_map_ite_mem {α : Type} [DecidableEq α] (k : α) (c : ℕ)
    (l : List α) (hl : l.Nodup) :
    (l.map (fun d => if k = d then c else 0)).sum = if k ∈ l then c else 0 := by
  induction l with
  | nil => simp
  | cons a l ih =>
      rw [List.nodup_cons] at hl
      by_cases hka : k = a
      · subst hka
        have hz : (l.map (fun d => if k = d then c else 0)).sum = 0 := by
          apply List.sum_eq_zero
          intro x hx
          obtain ⟨d, hd, rfl⟩ := List.mem_map.mp hx
          have : ¬ k = d := fun h => hl.1 (h ▸ hd)
          simp [this]
        simp [hz]
      · rw [List.map_cons, List.sum_cons, if_neg hka, Nat.zero_add, ih hl.2]
        simp [List.mem_cons, hka]

/-! ### Claim C1: FilterByDate selects exactly the matching rows and the
sub-tables over the distinct dates partition the table -/

/-- C1.  `FilterByDate(table, d)` returns exactly the rows whose
`departureDate` equals `d`; joining the sub-tables over all distinct dates
recovers the table up to permutation (every row occurrence lands in
exactly one sub-table); and each row of the table belongs to the
sub-table of exactly one distinct date. -/
theorem C1_filterByDate_partition (t : FlightTable) (d : Nat) :
    (∀ r, r ∈ filterByDate t d ↔ (r ∈ t ∧ r.departureDate = d))
    ∧ (((uniqueDates t).map (fun d2 => filterByDate t d2)).flatten).Perm t
    ∧ (∀ r ∈ t, ∃! d2, d2 ∈ uniqueDates t ∧ r ∈ filterByDate t d2) := by
  refine ⟨?_, ?_, ?_⟩
  · intro r
    simp [filterByDate, List.mem_filter]
  · rw [List.perm_iff_count]
    intro r
    rw [List.count_flatten, List.map_map]
    have hterm : ∀ d2 : Nat,
        (List.count r ∘ fun d2 => filterByDate t d2) d2
          = if r.departureDate = d2 then List.count r t else 0 := by
      intro d2
      simp only [Function.comp_apply, filterByDate, count_filter_ite,
        decide_eq_true_eq]
    rw [List.map_congr_left (fun d2 _ => hterm d2),
      sum_map_ite_mem r.departureDate (List.count r t) (uniqueDates t)
        (List.nodup_dedup _)]
    by_cases hmem : r.departureDate ∈ uniqueDates t
    · rw [if_pos hmem]
    · rw [if_neg hmem, eq_comm, List.count_eq_zero]
      intro hrt
      exact hmem (List.mem_dedup.mpr (List.mem_map.mpr ⟨r, hrt, rfl⟩))
  · intro r hr
    refine ⟨r.departureDate, ⟨?_, ?_⟩, ?_⟩
    · exact List.mem_dedup.mpr (List.mem_map.mpr ⟨r, hr, rfl⟩)
    · simp [filterByDate, List.mem_filter, hr]
    · rintro d2 ⟨_, hrd2⟩
      have := (List.mem_filter.mp hrd2).2
      simp only [decide_eq_true_eq] at this
      exact this.symm

/-- C1 witness: the characterization evaluated at a concrete table, date
and row. -/
theorem C1_witness :
    rA ∈ filterByDate tTie 1 ↔ (rA ∈ tTie ∧ rA.departureDate = 1) :=
  (C1_filterByDate_partition tTie 1).1 rA

/-! ### Claim C2: comparing a segment with itself is rejected -/

/-- C2.  For every table and segment, the Compare Segments page with the
same segment chosen twice produces the bare warning: no comparison bundle
is built, so no partial comparison results are rendered. -/
theorem C2_same_segment_rejected (t : FlightTable) (s : String) :
    comparePage t s s = ComparePageResult.warning := by
  simp [comparePage]

/-! ### Claim C7: grouping over an empty sub-table yields an empty result -/

/-- C7.  Filtering by a date absent from the table yields the empty
sub-table, and both grouping queries return an empty result set on it
(they are total functions: no error is possible). -/
theorem C7_empty_group_empty_result (t : FlightTable) (d : Nat)
    (h : d ∉ uniqueDates t) :
    filterByDate t d = [] ∧ no_shows_by_segment (filterByDate t d) = []
      ∧ daily_totals (filterByDate t d) = [] := by
  have hf : filterByDate t d = [] := by
    rw [filterByDate, List.filter_eq_nil_iff]
    intro r hr
    simp only [decide_eq_true_eq]
    intro hEq
    exact h (List.mem_dedup.mpr (List.mem_map.mpr ⟨r, hr, hEq⟩))
  refine ⟨hf, ?_, ?_⟩ <;> rw [hf] <;> rfl

/-- C7 witness: date 99 is absent from the concrete table and both
groupings of its (empty) sub-table are empty. -/
theorem C7_witness :
    filterByDate tTie 99 = [] ∧ no_shows_by_segment (filterByDate tTie 99) = []
      ∧ daily_totals (filterByDate tTie 99) = [] :=
  C7_empty_group_empty_result tTie 99 (by decide)

/-! ### Claim C9: SumColumns is linear on disjoint sub-tables -/

/-- C9.  For disjoint sub-tables `A` and `B` (their union being the
concatenation `A ++ B`), `SumColumns` over the union is the column-wise
sum of `SumColumns(A)` and `SumColumns(B)`. -/
theorem C9_sumColumns_linear (A B : FlightTable)
    (cols : List (FlightRecord → ℚ)) (_hd : A.Disjoint B) :
    sumColumns (A ++ B) cols
      = List.zipWith (fun x y => x + y) (sumColumns A cols) (sumColumns B cols) := by
  have hcol : ∀ c : FlightRecord → ℚ, colSum (A ++ B) c = colSum A c + colSum B c := by
    intro c
    simp [colSum]
  induction cols with
  | nil => rfl
  | cons c cs ih =>
      simp only [sumColumns, List.map_cons, List.zipWith_cons_cons] at ih ⊢
      exact congrArg₂ List.cons (hcol c) ih

/-- C9 witness: linearity evaluated on two concrete disjoint one-row
tables and the summary columns of the By Date page. -/
theorem C9_witness :
    List.Disjoint [rA] [rB]
    ∧ sumColumns ([rA] ++ [rB]) compareCols
        = List.zipWith (fun x y => x + y) (sumColumns [rA] compareCols)
            (sumColumns [rB] compareCols) := by
  have hd : List.Disjoint [rA] [rB] := by
    intro a ha hb
    rw [List.mem_singleton] at ha hb
    exact absurd (ha ▸ hb) (by decide)
  exact ⟨hd, C9_sumColumns_linear [rA] [rB] compareCols hd⟩

/-! ### Claim C3: the two-segment no-shows series are aligned on the union
of dates with 0 filled in -/

/-- Looking up a key that is absent from a keyed series yields the fill
value 0. -/
lemma lookup0_of_not_mem (a : List (Nat × ℚ)) (d : Nat)
    (h : d ∉ a.map Prod.fst) : lookup0 a d = 0 := by
  induction a with
  | nil => rfl
  | cons p rest ih =>
      obtain ⟨k, v⟩ := p
      simp only [List.map_cons, List.mem_cons] at h
      push_neg at h
      rw [lookup0, if_neg (fun hk => h.1 hk.symm)]
      exact ih h.2

/-- Looking up a key present in a keyed series yields one of its entries. -/
lemma lookup0_mem (a : List (Nat × ℚ)) (d : Nat)
    (h : d ∈ a.map Prod.fst) : (d, lookup0 a d) ∈ a := by
  induction a with
  | nil => simp at h
  | cons p rest ih =>
      obtain ⟨k, v⟩ := p
      by_cases hk : k = d
      · subst hk
        rw [lookup0, if_pos rfl]
        exact List.mem_cons_self _ _
      · simp only [List.map_cons, List.mem_cons] at h
        rcases h with h | h
        · exact absurd h.symm hk
        · rw [lookup0, if_neg hk]
          exact List.mem_cons_of_mem _ (ih h)

/-- Membership in the union axis. -/
lemma mem_unionDates (d : Nat) (a b : List (Nat × ℚ)) :
    d ∈ unionDates a b ↔ (d ∈ a.map Prod.fst ∨ d ∈ b.map Prod.fst) := by
  rw [unionDates, (List.perm_insertionSort _ _).mem_iff, List.mem_dedup,
    List.mem_append]

/-- C3.  For distinct segments, the date axis of the no-shows comparison
frame is exactly the union of the two segments' date axes (no date is
dropped), and each row of the frame carries, for each segment, that
segment's daily total when the date is present in it and 0 when it is
absent.  Both series live on the single shared axis of the frame. -/
theorem C3_compare_alignment (t : FlightTable) (s1 s2 : String)
    (_h : s1 ≠ s2) :
    (∀ d, d ∈ (compare_df t s1 s2).map Prod.fst
        ↔ (d ∈ (no_shows_daily t s1).map Prod.fst
            ∨ d ∈ (no_shows_daily t s2).map Prod.fst))
    ∧ (∀ d x y, (d, x, y) ∈ compare_df t s1 s2 →
        ((d ∈ (no_shows_daily t s1).map Prod.fst → (d, x) ∈ no_shows_daily t s1)
         ∧ (d ∉ (no_shows_daily t s1).map Prod.fst → x = 0)
         ∧ (d ∈ (no_shows_daily t s2).map Prod.fst → (d, y) ∈ no_shows_daily t s2)
         ∧ (d ∉ (no_shows_daily t s2).map Prod.fst → y = 0))) := by
  constructor
  · intro d
    rw [compare_df, List.map_map]
    have : (Prod.fst ∘ fun d => (d, lookup0 (no_shows_daily t s1) d,
        lookup0 (no_shows_daily t s2) d)) = id := rfl
    rw [this, List.map_id]
    exact mem_unionDates d _ _
  · intro d x y hmem
    rw [compare_df, List.mem_map] at hmem
    obtain ⟨d0, _, heq⟩ := hmem
    injection heq with h1 h23
    injection h23 with h2 h3
    subst h1
    subst h2
    subst h3
    exact ⟨fun hm => lookup0_mem _ _ hm, fun hm => lookup0_of_not_mem _ _ hm,
      fun hm => lookup0_mem _ _ hm, fun hm => lookup0_of_not_mem _ _ hm⟩

/-- C3 witness: on the spec's scenario table (segment "A" on dates 1 and
2, segment "B" on dates 2 and 3), date 3 is absent from segment "A" and
present in segment "B", yet lies on the shared axis of the comparison
frame, and segment "A"'s fill value there is 0. -/
theorem C3_witness :
    (3 ∉ (no_shows_daily tScen "A").map Prod.fst
        ∧ 3 ∈ (no_shows_daily tScen "B").map Prod.fst)
    ∧ (3 ∈ (compare_df tScen "A" "B").map Prod.fst
        ↔ (3 ∈ (no_shows_daily tScen "A").map Prod.fst
            ∨ 3 ∈ (no_shows_daily tScen "B").map Prod.fst))
    ∧ lookup0 (no_shows_daily tScen "A") 3 = 0 := by
  refine ⟨by decide, (C3_compare_alignment tScen "A" "B" (by decide)).1 3, ?_⟩
  exact lookup0_of_not_mem _ _ (by decide)

/-! ### Claim C4: top-N by summed metric -/

/-- Flown-load group sums of the tied table: both segments sum to 5. -/
lemma groupSum_tTie :
    groupSumBySegment tTie (fun r => r.flownLoad) = [("A", (5 : ℚ)), ("B", 5)] := by
  have hfA : filterBySegment tTie "A" = [rA] := rfl
  have hfB : filterBySegment tTie "B" = [rB] := rfl
  have hA : colSum (filterBySegment tTie "A") (fun r => r.flownLoad) = 5 := by
    rw [hfA]
    simp [colSum, rA]
  have hB : colSum (filterBySegment tTie "B") (fun r => r.flownLoad) = 5 := by
    rw [hfB]
    simp [colSum, rB]
  have hseg : segKeys tTie = ["A", "B"] := by decide
  rw [groupSumBySegment, hseg, List.map_cons, List.map_cons, List.map_nil, hA, hB]

/-- The reversed tied pair is an admissible output of the top-5 query on
the tied table: it is a value-sorted permutation of the grouped series
(which the unstable sort may produce), truncated to 5 entries. -/
lemma top_segments_tTie_rev :
    top_segments tTie [("B", (5 : ℚ)), ("A", 5)] := by
  refine ⟨[("B", (5 : ℚ)), ("A", 5)], ?_, ?_, rfl⟩
  · rw [groupSum_tTie]
    exact List.Perm.swap ("B", (5 : ℚ)) ("A", 5) []
  · simp [List.sorted_cons, byValDesc]

/-- C4 counterexample: on a table with two segments of equal flown-load
sum, the reversed tied pair is an output the top-5 query may return, and
it is neither strictly descending (the tied sums are equal) nor
tie-stable (its tied entries do not begin the grouped series, whose
group-iteration order is "A" before "B") — refuting the claim as
stated. -/
theorem C4_strict_counterexample :
    top_segments tTie [("B", (5 : ℚ)), ("A", 5)]
    ∧ ¬ ([("B", (5 : ℚ)), ("A", 5)] : List (String × ℚ)).Sorted (fun p q => q.2 < p.2)
    ∧ ¬ (([("B", (5 : ℚ)), ("A", 5)] : List (String × ℚ)).filter (fun p => p.2 = 5)
          <+: (groupSumBySegment tTie (fun r => r.flownLoad)).filter (fun p => p.2 = 5)) := by
  refine ⟨top_segments_tTie_rev, ?_, ?_⟩
  · intro hs
    have h55 := List.rel_of_sorted_cons hs ("A", 5) (List.mem_cons_self _ _)
    exact absurd h55 (lt_irrefl (5 : ℚ))
  · rw [groupSum_tTie]
    have hfL : (([("B", (5 : ℚ)), ("A", 5)] : List (String × ℚ)).filter (fun p => p.2 = 5))
        = [("B", 5), ("A", 5)] := by
      norm_num [List.filter_cons]
    have hfR : (([("A", (5 : ℚ)), ("B", 5)] : List (String × ℚ)).filter (fun p => p.2 = 5))
        = [("A", 5), ("B", 5)] := by
      norm_num [List.filter_cons]
    rw [hfL, hfR]
    rintro ⟨u, hu⟩
    rw [List.cons_append] at hu
    injection hu with h1 _
    exact absurd (congrArg Prod.fst h1) (by decide)

/-- C4 (amended).  Every list the top-5 queries may return is sorted in
descending, non-increasing order by the summed metric (`byValDesc`) and
has length `min 5 (number of distinct groups)`; the order of tied sums
is left unspecified by the program. -/
theorem C4_topN_sorted_desc (t : FlightTable) :
    (∀ out, top_segments t out →
        out.Sorted byValDesc ∧ out.length = min 5 (segKeys t).length)
    ∧ (∀ out, top_dates t out →
        out.Sorted byValDesc ∧ out.length = min 5 (dateKeys t).length) := by
  constructor
  · rintro out ⟨s, hperm, hsort, rfl⟩
    refine ⟨List.Pairwise.sublist (List.take_sublist 5 _) hsort, ?_⟩
    rw [List.length_take, ← hperm.length_eq, groupSumBySegment, List.length_map]
  · rintro out ⟨s, hperm, hsort, rfl⟩
    refine ⟨List.Pairwise.sublist (List.take_sublist 5 _) hsort, ?_⟩
    rw [List.length_take, ← hperm.length_eq, groupSumByDate, List.length_map]

/-- C4 witness: on the tied table, the group-ordered tied pair is an
admissible output, and it is sorted non-increasingly with length
min 5 2 = 2. -/
theorem C4_witness :
    top_segments tTie [("A", (5 : ℚ)), ("B", 5)]
    ∧ ([("A", (5 : ℚ)), ("B", 5)] : List (String × ℚ)).Sorted byValDesc
    ∧ ([("A", (5 : ℚ)), ("B", 5)] : List (String × ℚ)).length
        = min 5 (segKeys tTie).length := by
  have hpre : top_segments tTie [("A", (5 : ℚ)), ("B", 5)] := by
    refine ⟨[("A", (5 : ℚ)), ("B", 5)], ?_, ?_, rfl⟩
    · exact groupSum_tTie ▸ List.Perm.refl _
    · simp [List.sorted_cons, byValDesc]
  have h := (C4_topN_sorted_desc tTie).1 _ hpre
  exact ⟨hpre, h.1, h.2⟩


/-! ### Claims C5, C8, C10: outlier detection -/

/-- The `No Shows` series has one entry per row. -/
lemma noShowsList_length (t : FlightTable) : (noShowsList t).length = t.length :=
  List.length_map _ _

/-- Mean of a constant nonempty series. -/
lemma qmean_const (xs : List ℚ) (c : ℚ) (hne : xs ≠ [])
    (hall : ∀ x ∈ xs, x = c) : qmean xs = c := by
  rw [qmean, List.sum_eq_card_nsmul xs c hall, nsmul_eq_mul]
  have hlen : (xs.length : ℚ) ≠ 0 := by
    simpa using hne
  field_simp

/-- A constant series has zero squared deviation. -/
lemma sumSqDev_const (xs : List ℚ) (c : ℚ) (hall : ∀ x ∈ xs, x = c) :
    sumSqDev xs = 0 := by
  rw [sumSqDev]
  apply List.sum_eq_zero
  intro y hy
  obtain ⟨x, hx, rfl⟩ := List.mem_map.mp hy
  have hne : xs ≠ [] := List.ne_nil_of_mem hx
  rw [hall x hx, qmean_const xs c hne hall]
  ring

/-- With fewer than two rows the threshold is NaN (`none`): the sample
standard deviation of fewer than two samples is undefined. -/
lemma outlier_threshold_of_small (t : FlightTable) (h : t.length ≤ 1) :
    outlier_threshold t = none := by
  have hv : sampleVar (noShowsList t) = none := by
    rw [sampleVar, if_pos]
    rw [noShowsList_length]
    exact h
  have hs : sampleStd (noShowsList t) = none := by
    simp only [sampleStd, hv]
  rcases hm : seriesMean (noShowsList t) with _ | m <;>
    simp only [outlier_threshold, hm, hs]

/-- A NaN threshold admits no outliers: any comparison against NaN is
false, so the selection is empty. -/
lemma outliers_of_none (t : FlightTable) (h : outlier_threshold t = none) :
    outliers t = [] := by
  rw [outliers, List.filter_eq_nil_iff]
  intro r _
  simp only [decide_eq_true_eq]
  rintro ⟨thr, hthr, _⟩
  rw [h] at hthr
  exact Option.noConfusion hthr

/-- C5.  On a table whose `No Shows` column is constant, outlier
detection returns no rows: with at least two rows the threshold
`mean + 2·std` equals the constant value exactly and the strict `>`
selection is empty; with fewer rows the threshold is NaN and the
selection is empty too. -/
theorem C5_no_variance_no_outliers (t : FlightTable) (c : ℚ)
    (h : ∀ r ∈ t, r.noShows = c) :
    outliers t = []
      ∧ (2 ≤ t.length → outlier_threshold t = some ((c : ℚ) : ℝ)) := by
  have hall : ∀ x ∈ noShowsList t, x = c := by
    intro x hx
    obtain ⟨r, hr, rfl⟩ := List.mem_map.mp hx
    exact h r hr
  have hthr : 2 ≤ t.length → outlier_threshold t = some ((c : ℚ) : ℝ) := by
    intro h2
    have hne : noShowsList t ≠ [] := by
      have : (noShowsList t).length ≠ 0 := by
        rw [noShowsList_length]
        omega
      exact fun hnil => this (by rw [hnil]; rfl)
    have hm : seriesMean (noShowsList t) = some c := by
      rw [seriesMean, if_neg, qmean_const _ c hne hall]
      rw [noShowsList_length]
      omega
    have hv : sampleVar (noShowsList t) = some 0 := by
      rw [sampleVar, if_neg, sumSqDev_const _ c hall, zero_div]
      rw [noShowsList_length]
      omega
    have hs : sampleStd (noShowsList t) = some 0 := by
      simp only [sampleStd, hv]
      norm_num
    simp only [outlier_threshold, hm, hs]
    norm_num
  refine ⟨?_, hthr⟩
  by_cases h2 : 2 ≤ t.length
  · rw [outliers, List.filter_eq_nil_iff]
    intro r hr
    simp only [decide_eq_true_eq]
    rintro ⟨thr, hthr2, hlt⟩
    rw [hthr h2] at hthr2
    injection hthr2 with hthr2
    rw [← hthr2, h r hr] at hlt
    exact lt_irrefl _ hlt
  · exact outliers_of_none t (outlier_threshold_of_small t (by omega))

/-- C5 witness: the constant-column table has no outliers and its
threshold equals the constant. -/
theorem C5_witness :
    outliers tConst = [] ∧ (2 ≤ tConst.length
      → outlier_threshold tConst = some ((5 : ℚ) : ℝ)) :=
  C5_no_variance_no_outliers tConst 5 (by decide)

/-- C10.  On a one-row table the sample standard deviation is undefined,
the threshold is NaN (`none`), every `>` comparison against it is false,
and outlier detection returns the empty result set (it cannot raise: it
is a total function). -/
theorem C10_single_row_no_outliers (t : FlightTable) (h : t.length = 1) :
    outlier_threshold t = none ∧ outliers t = [] := by
  have hnone := outlier_threshold_of_small t (by omega)
  exact ⟨hnone, outliers_of_none t hnone⟩

/-- C10 witness: the one-row table evaluated. -/
theorem C10_witness : outlier_threshold tOne = none ∧ outliers tOne = [] :=
  C10_single_row_no_outliers tOne rfl

/-- C8.  With at least two rows, the outlier threshold is exactly
`mean + 2 · sqrt( Σ(x − mean)² / (N − 1) )`: the standard deviation in
use is the sample standard deviation with the N−1 denominator (pandas'
default `ddof=1`), matching the convention the spec fixes. -/
theorem C8_threshold_sample_std (t : FlightTable) (h : 2 ≤ t.length) :
    outlier_threshold t
      = some ((qmean (noShowsList t) : ℝ)
          + 2 * Real.sqrt ((sumSqDev (noShowsList t) : ℝ) / ((t.length : ℝ) - 1))) := by
  have hm : seriesMean (noShowsList t) = some (qmean (noShowsList t)) := by
    rw [seriesMean, if_neg]
    rw [noShowsList_length]
    omega
  have hv : sampleVar (noShowsList t)
      = some (sumSqDev (noShowsList t) / (((noShowsList t).length : ℚ) - 1)) := by
    rw [sampleVar, if_neg]
    rw [noShowsList_length]
    omega
  have hs : sampleStd (noShowsList t)
      = some (Real.sqrt ((sumSqDev (noShowsList t) : ℝ) / ((t.length : ℝ) - 1))) := by
    simp only [sampleStd, hv, noShowsList_length]
    congr 2
    push_cast
    ring_nf
  simp only [outlier_threshold, hm, hs]

/-- C8 witness: on the table with `No Shows` values 1, 2, 3 the mean is
2, the sum of squared deviations is 2, the sample variance is 1, and the
threshold evaluates to exactly 4. -/
theorem C8_witness : outlier_threshold tStd = some 4 := by
  have hq : qmean (noShowsList tStd) = 2 := by
    norm_num [qmean, noShowsList, tStd]
  have hsq : sumSqDev (noShowsList tStd) = 2 := by
    norm_num [sumSqDev, qmean, noShowsList, tStd]
  have hlen : (tStd.length : ℝ) = 3 := by norm_num [tStd]
  rw [C8_threshold_sample_std tStd (by decide), hq, hsq, hlen]
  norm_num [Real.sqrt_one]

/-! ### Claim C6: the correlation matrix is symmetric with unit diagonal -/

/-- C6.  For any table whose numeric columns all have nonzero (sum of)
squared deviations — in particular any table with at least two rows of
nonzero variance per column — the Pearson correlation matrix over the
numeric columns is symmetric, and every diagonal entry equals exactly 1
(exact arithmetic subsumes the floating-point tolerance of the claim). -/
theorem C6_corr_symm_diag (t : FlightTable)
    (hvar : ∀ f ∈ numericCols, sxy t f f ≠ 0) :
    (∀ f ∈ numericCols, ∀ g ∈ numericCols, corr t f g = corr t g f)
    ∧ (∀ f ∈ numericCols, corr t f f = 1) := by
  constructor
  · intro f _ g _
    have hs : sxy t f g = sxy t g f := by
      rw [sxy, sxy]
      have hfun : (fun r => (f r - colMean t f) * (g r - colMean t g))
          = (fun r => (g r - colMean t g) * (f r - colMean t f)) :=
        funext (fun r => mul_comm _ _)
      rw [hfun]
    rw [corr, corr, hs, mul_comm]
  · intro f hf
    have h0 : (0 : ℚ) ≤ sxy t f f := by
      rw [sxy]
      apply List.sum_nonneg
      intro x hx
      obtain ⟨r, _, rfl⟩ := List.mem_map.mp hx
      exact mul_self_nonneg _
    rw [corr, Real.mul_self_sqrt (by exact_mod_cast h0)]
    apply div_self
    exact_mod_cast hvar f hf

/-- C6 witness: on the two-row table in which every numeric column takes
the values 1 and 2, every column has nonzero squared deviation and the
diagonal correlation of the `Adults` column is exactly 1. -/
theorem C6_witness : corr tVar (fun r => r.adults) (fun r => r.adults) = 1 := by
  have hvar : ∀ f ∈ numericCols, sxy tVar f f ≠ 0 := by
    intro f hf
    fin_cases hf <;> norm_num [sxy, colMean, qmean, tVar]
  exact (C6_corr_symm_diag tVar hvar).2 (fun r => r.adults)
    (List.mem_cons_self _ _)
